import Mathlib

/-!
Verification of the codex-lb account-pool / request-router core.

Shallow embedding of the Python sources under `app/`:
* JSON values are the inductive `Json` (numbers as exact rationals,
  objects as ordered association lists, mirroring Python's
  insertion-ordered `dict`).
* Python `None` is `Option.none`; fallible code returns `Except`.
* Python truthiness (`x or y`, `if x:`) is modelled explicitly by the
  `py*` helpers; `int(x)` (truncation toward zero) is `py_int`;
  `str.strip` / `str.lower` / `str.split()` are `py_strip` / `py_lower` /
  `py_split_ws` (ASCII-faithful; exotic Unicode whitespace or case
  mappings are out of scope).
-/

/-- JSON value as handled by the Python code: `dict`s are ordered
association lists (Python dicts preserve insertion order), numbers are
exact rationals. -/
inductive Json where
  | null : Json
  | bool (b : Bool) : Json
  | num (q : ℚ) : Json
  | str (s : String) : Json
  | arr (items : List Json) : Json
  | obj (fields : List (String × Json)) : Json

/-- `d.get(k)`: first binding of `k` in an association list. -/
def py_get {α : Type} : List (String × α) → String → Option α
  | [], _ => none
  | (k0, v0) :: rest, k => if k0 = k then some v0 else py_get rest k

/-- Python truthiness of a JSON value. -/
def jTruthy : Json → Bool
  | .null => false
  | .bool b => b
  | .num q => decide (q ≠ 0)
  | .str s => decide (s ≠ "")
  | .arr items => !items.isEmpty
  | .obj fields => !fields.isEmpty

/-- Python `a or b` on optional strings (`None` and `""` are falsy). -/
def pyOrS (a : Option String) (b : Option String) : Option String :=
  match a with
  | some s => if s = "" then b else some s
  | none => b

/-- Python `a or b` where `a` is an optional string and `b` a string. -/
def pyOrStr (a : Option String) (b : String) : String :=
  match a with
  | some s => if s = "" then b else s
  | none => b

/-- Python `a or b` on optional JSON values. -/
def pyOrJ (a : Option Json) (b : Option Json) : Option Json :=
  match a with
  | some v => if jTruthy v then some v else b
  | none => b

/-- Truthiness of an optional string (`None` and `""` are falsy). -/
def opt_str_truthy : Option String → Bool
  | some s => decide (s ≠ "")
  | none => false

/-- Python `int(x)`: truncation toward zero. -/
def py_int (q : ℚ) : Int :=
  if 0 ≤ q then ⌊q⌋ else -⌊-q⌋

/-- `"\n".join parts`. -/
def joinNL : List String → String
  | [] => ""
  | [p] => p
  | p :: rest => p ++ "\n" ++ joinNL rest

/-- The whitespace characters recognised by Python `str.strip()` /
`str.split()` (ASCII subset). -/
def is_py_space (c : Char) : Bool :=
  c = ' ' || c = '\t' || c = '\n' || c = '\r' || c = '\x0b' || c = '\x0c'

/-- Python `str.strip()`. -/
def py_strip (s : String) : String :=
  String.mk (((s.data.dropWhile is_py_space).reverse.dropWhile is_py_space).reverse)

/-- Python `str.lower()` (ASCII). -/
def py_char_lower (c : Char) : Char :=
  if 'A' ≤ c ∧ c ≤ 'Z' then Char.ofNat (c.toNat + 32) else c

/-- Python `str.lower()` on a whole string. -/
def py_lower (s : String) : String :=
  String.mk (s.data.map py_char_lower)

/-- Helper for Python `str.split()`: cut a character list at whitespace,
accumulating the current chunk (reversed). -/
def split_ws_aux : List Char → List Char → List (List Char)
  | [], acc => [acc.reverse]
  | c :: cs, acc =>
      if is_py_space c then acc.reverse :: split_ws_aux cs []
      else split_ws_aux cs (c :: acc)

/-- Python `str.split()` with no argument: split on whitespace runs,
dropping empty chunks. -/
def py_split_ws (s : String) : List String :=
  ((split_ws_aux s.data []).filter (fun l => l ≠ [])).map (fun l => String.mk l)

/-- Strict lexicographic order on character lists (shorter prefix first),
matching Python string comparison for ASCII. -/
def chars_lt : List Char → List Char → Bool
  | [], [] => false
  | [], _ :: _ => true
  | _ :: _, [] => false
  | a :: as, b :: bs => if a < b then true else if b < a then false else chars_lt as bs

/-- Strict lexicographic order on strings. -/
def str_lt (a b : String) : Bool := chars_lt a.data b.data

/-! ## `app/core/plan_types.py` -/

/-- `ACCOUNT_PLAN_TYPES` from `app/core/plan_types.py`. -/
def ACCOUNT_PLAN_TYPES : List String :=
  ["free", "plus", "pro", "team", "business", "enterprise", "edu"]

/-- `_clean_plan_type`: strip, collapsing an empty result to `None`. -/
def clean_plan_type (value : Option String) : Option String :=
  match value with
  | none => none
  | some v => if py_strip v = "" then none else some (py_strip v)

/-- `canonicalize_account_plan_type` from `app/core/plan_types.py`. -/
def canonicalize_account_plan_type (value : Option String) : Option String :=
  match clean_plan_type value with
  | none => none
  | some cleaned =>
      if py_lower cleaned ∈ ACCOUNT_PLAN_TYPES then some (py_lower cleaned) else some cleaned

/-- `coerce_account_plan_type` from `app/core/plan_types.py`. -/
def coerce_account_plan_type (value : Option String) (default : String) : String :=
  match clean_plan_type value with
  | none => default
  | some cleaned =>
      match canonicalize_account_plan_type (some cleaned) with
      | some canonical => canonical
      | none => default

/-! ## `app/core/openai/requests.py` -/

/-- `_merge_instructions` from `app/core/openai/requests.py`. -/
def merge_instructions (existing : String) (extra_parts : List String) : String :=
  if extra_parts = [] then existing
  else
    let extra := joinNL (extra_parts.filter (fun p => p ≠ ""))
    if extra = "" then existing
    else if existing ≠ "" then existing ++ "\n" ++ extra
    else extra

/-- One element of a content list in `_content_to_text`: a plain string,
or a dict with a string `text` entry. -/
def part_text : Json → Option String
  | .str s => some s
  | .obj fields =>
      match py_get fields "text" with
      | some (.str t) => some t
      | _ => none
  | _ => none

/-- `_content_to_text` from `app/core/openai/requests.py`; the argument is
the result of `message.get("content")` (a JSON `null` value behaves like
an absent key, both become Python `None`). -/
def content_to_text : Option Json → Option String
  | none => none
  | some .null => none
  | some (.str s) => some s
  | some (.arr parts) =>
      some (joinNL ((parts.filterMap part_text).filter (fun p => p ≠ "")))
  | some (.obj fields) =>
      match py_get fields "text" with
      | some (.str t) => some t
      | _ => none
  | some _ => none

/-- Does this message dict carry role `system` or `developer`? -/
def sys_dev_role (fields : List (String × Json)) : Bool :=
  match py_get fields "role" with
  | some (.str r) => r = "system" || r = "developer"
  | _ => false

/-- The message loop of `_coerce_messages_payload`: returns
`(instructions_parts, input_messages)` or the first raised error. -/
def coerce_messages_loop : List Json → Except String (List String × List Json)
  | [] => .ok ([], [])
  | .obj fields :: rest =>
      match coerce_messages_loop rest with
      | .error e => .error e
      | .ok (parts, inputs) =>
          if sys_dev_role fields then
            match content_to_text (py_get fields "content") with
            | some s => if s = "" then .ok (parts, inputs) else .ok (s :: parts, inputs)
            | none => .ok (parts, inputs)
          else
            .ok (parts, .obj fields :: inputs)
  | _ :: _ => .error "Each message must be an object."

/-- `input_value not in (None, [])` — an `input` key that blocks the
`messages` coercion (a JSON `null` value behaves like Python `None`). -/
def input_present_nonempty : Option Json → Bool
  | none => false
  | some .null => false
  | some (.arr []) => false
  | some _ => true

/-- `result[k] = v` on an insertion-ordered dict: replace in place when the
key exists, else append. -/
def set_key : List (String × Json) → String → Json → List (String × Json)
  | [], k, v => [(k, v)]
  | (k0, v0) :: rest, k, v =>
      if k0 = k then (k, v) :: rest else (k0, v0) :: set_key rest k v

/-- `result.pop(k, None)` on a dict (keys are unique, so filtering out the
key equals removing its single entry). -/
def remove_key (l : List (String × Json)) (k : String) : List (String × Json) :=
  l.filter (fun kv => kv.1 ≠ k)

/-- The dict returned by `_coerce_messages_payload` on success: `messages`
popped, `input` set to the collected non-system messages, `instructions`
merged from the collected parts. -/
def coerce_messages_result (data : List (String × Json)) (parts : List String)
    (inputs : List Json) : List (String × Json) :=
  let result0 := remove_key data "messages"
  let result1 := set_key result0 "input" (.arr inputs)
  let instr :=
    match py_get result1 "instructions" with
    | some (.str s) =>
        if s ≠ "" then merge_instructions s parts
        else joinNL (parts.filter (fun p => p ≠ ""))
    | _ => joinNL (parts.filter (fun p => p ≠ ""))
  set_key result1 "instructions" (.str instr)

/-- `_coerce_messages_payload` from `app/core/openai/requests.py`. -/
def coerce_messages_payload : Json → Except String Json
  | .obj data =>
      match py_get data "messages" with
      | none => .ok (.obj data)
      | some msgs =>
          if input_present_nonempty (py_get data "input") then
            .error "Provide either input or messages, not both."
          else
            match msgs with
            | .arr messages =>
                match coerce_messages_loop messages with
                | .error e => .error e
                | .ok (parts, inputs) => .ok (.obj (coerce_messages_result data parts inputs))
            | _ => .error "messages must be a list."
  | data => .ok data

/-- The validated `ResponsesRequest` model (`app/core/openai/requests.py`).
Nested pydantic sub-models (`reasoning`, `text`) are carried as raw JSON
objects; `extra` holds the extra fields admitted by `extra="allow"`;
`store_set` records whether `store` was present in the input
(`model_fields_set`). The `include` field is `include_` (Lean keyword). -/
structure ResponsesRequest where
  model : String
  instructions : String
  input : List Json
  tools : List Json
  tool_choice : Option String
  parallel_tool_calls : Option Bool
  reasoning : Option Json
  store : Bool
  store_set : Bool
  stream : Option Bool
  include_ : List String
  prompt_cache_key : Option String
  text : Option Json
  extra : List (String × Json)

/-- Validation of an optional string field. -/
def get_opt_str : Option Json → Except String (Option String)
  | none => .ok none
  | some .null => .ok none
  | some (.str s) => .ok (some s)
  | some _ => .error "expected a string"

/-- Validation of an optional boolean field. -/
def get_opt_bool : Option Json → Except String (Option Bool)
  | none => .ok none
  | some .null => .ok none
  | some (.bool b) => .ok (some b)
  | some _ => .error "expected a boolean"

/-- Validation of an optional object field (nested model kept as JSON). -/
def get_opt_obj : Option Json → Except String (Option Json)
  | none => .ok none
  | some .null => .ok none
  | some (.obj fields) => .ok (some (.obj fields))
  | some _ => .error "expected an object"

/-- Validation of a list-of-strings field defaulting to `[]`. -/
def get_str_list : Option Json → Except String (List String)
  | none => .ok []
  | some (.arr items) =>
      items.mapM (fun j =>
        match j with
        | .str s => Except.ok s
        | _ => Except.error "expected a string")
  | some _ => .error "expected a list of strings"

/-- The declared field names of `ResponsesRequest`. -/
def responses_request_field_names : List String :=
  ["model", "instructions", "input", "tools", "tool_choice", "parallel_tool_calls",
   "reasoning", "store", "stream", "include", "prompt_cache_key", "text"]

/-- Validation of the required non-empty `model` field. -/
def get_model_field : Option Json → Except String String
  | some (.str s) => if s = "" then .error "model must be non-empty" else .ok s
  | _ => .error "model is required"

/-- Validation of a string field defaulting to the empty string. -/
def get_str_field_default : Option Json → Except String String
  | none => .ok ""
  | some (.str s) => .ok s
  | some _ => .error "expected a string"

/-- Validation of a JSON-list field defaulting to `[]`. -/
def get_list_field : Option Json → Except String (List Json)
  | none => .ok []
  | some (.arr items) => .ok items
  | some _ => .error "expected a list"

/-- The `store` field with its validator: rejects `True`, records presence
(`model_fields_set`). -/
def get_store_field : Option Json → Except String (Bool × Bool)
  | none => .ok (false, false)
  | some (.bool b) => if b then .error "store must be false" else .ok (false, true)
  | some _ => .error "store must be a boolean"

/-- The field-validation pass of `ResponsesRequest.model_validate` on the
coerced object (pydantic lax coercions such as string-to-bool are not
modelled; they do not affect the claims), fields in declaration order. -/
def validate_responses_request_fields (kvs : List (String × Json)) :
    Except String ResponsesRequest :=
  get_model_field (py_get kvs "model") >>= fun model =>
  get_str_field_default (py_get kvs "instructions") >>= fun instructions =>
  get_list_field (py_get kvs "input") >>= fun input =>
  get_list_field (py_get kvs "tools") >>= fun tools =>
  get_opt_str (py_get kvs "tool_choice") >>= fun tool_choice =>
  get_opt_bool (py_get kvs "parallel_tool_calls") >>= fun parallel_tool_calls =>
  get_opt_obj (py_get kvs "reasoning") >>= fun reasoning =>
  get_store_field (py_get kvs "store") >>= fun store_pair =>
  get_opt_bool (py_get kvs "stream") >>= fun stream =>
  get_str_list (py_get kvs "include") >>= fun inc =>
  get_opt_str (py_get kvs "prompt_cache_key") >>= fun prompt_cache_key =>
  get_opt_obj (py_get kvs "text") >>= fun text =>
  Except.ok
    { model := model, instructions := instructions, input := input, tools := tools,
      tool_choice := tool_choice, parallel_tool_calls := parallel_tool_calls,
      reasoning := reasoning, store := store_pair.1, store_set := store_pair.2,
      stream := stream, include_ := inc, prompt_cache_key := prompt_cache_key,
      text := text,
      extra := kvs.filter (fun kv => !(responses_request_field_names.contains kv.1)) }

/-- `ResponsesRequest.model_validate`: run the `_coerce_messages` model
validator, then validate the fields. -/
def validate_responses_request (data : Json) : Except String ResponsesRequest :=
  match coerce_messages_payload data with
  | .error e => .error e
  | .ok (.obj kvs) => validate_responses_request_fields kvs
  | .ok _ => .error "request body must be an object"

/-- One optional entry of `model_dump(exclude_none=True)`. -/
def opt_field (k : String) : Option Json → List (String × Json)
  | none => []
  | some v => [(k, v)]

/-- `model_dump(mode="json", exclude_none=True)`: declared fields in
declaration order, then the extra fields. -/
def model_dump (r : ResponsesRequest) : List (String × Json) :=
  [("model", .str r.model), ("instructions", .str r.instructions),
   ("input", .arr r.input), ("tools", .arr r.tools)]
  ++ opt_field "tool_choice" (r.tool_choice.map .str)
  ++ opt_field "parallel_tool_calls" (r.parallel_tool_calls.map .bool)
  ++ opt_field "reasoning" r.reasoning
  ++ [("store", .bool r.store)]
  ++ opt_field "stream" (r.stream.map .bool)
  ++ [("include", .arr (r.include_.map .str))]
  ++ opt_field "prompt_cache_key" (r.prompt_cache_key.map .str)
  ++ opt_field "text" r.text
  ++ r.extra

/-- `_UNSUPPORTED_UPSTREAM_FIELDS` from `app/core/openai/requests.py`. -/
def unsupported_upstream_fields : List String := ["max_output_tokens"]

/-- `_strip_unsupported_fields`: pop each unsupported key (dict keys are
unique, so filtering equals `pop`). -/
def strip_unsupported_fields (payload : List (String × Json)) : List (String × Json) :=
  payload.filter (fun kv => !(unsupported_upstream_fields.contains kv.1))

/-- `ResponsesRequest.to_payload`. -/
def to_payload (r : ResponsesRequest) : List (String × Json) :=
  let payload := model_dump r
  let payload := if r.store_set then payload else remove_key payload "store"
  strip_unsupported_fields payload

/-! ## `app/core/clients/oauth.py` -/

/-- The settings fields consumed by the OAuth client
(`app/core/config/settings` is external to the proxied core). -/
structure OAuthSettings where
  auth_base_url : String
  oauth_client_id : String
  oauth_redirect_uri : String
  oauth_scope : String

/-- `_ensure_offline_access` from `app/core/clients/oauth.py`. -/
def ensure_offline_access (scope : String) : String :=
  if (py_split_ws scope).contains "offline_access" then scope
  else scope ++ " offline_access"

/-- The `params` dict built by `build_authorization_url`
(`app/core/clients/oauth.py`); the returned URL is
`base + "/oauth/authorize?" + urlencode(params)`, so these are exactly the
query parameters of the produced authorization URL (percent-encoding,
which leaves `offline_access` intact, is not modelled). -/
def build_authorization_url_params (settings : OAuthSettings)
    (state code_challenge : String)
    (base_url client_id redirect_uri scope : Option String) : List (String × String) :=
  let authorization_scope := pyOrStr scope (ensure_offline_access settings.oauth_scope)
  [("response_type", "code"),
   ("client_id", pyOrStr client_id settings.oauth_client_id),
   ("redirect_uri", pyOrStr redirect_uri settings.oauth_redirect_uri),
   ("scope", authorization_scope),
   ("code_challenge", code_challenge),
   ("code_challenge_method", "S256"),
   ("state", state),
   ("id_token_add_organizations", "true"),
   ("codex_cli_simplified_flow", "true"),
   ("originator", "codex_cli_rs")]

/-- `OAuthError` from `app/core/clients/oauth.py`. -/
structure OAuthError where
  code : String
  message : String
  status_code : Option Nat
deriving DecidableEq

/-- `OAuthTokens` from `app/core/clients/oauth.py`. -/
structure OAuthTokens where
  access_token : String
  refresh_token : String
  id_token : String
deriving DecidableEq

/-- The `OAuthTokenPayload` pydantic model (`app/core/auth/models`, outside
the proxied core): all fields optional, exactly those read by
`app/core/clients/oauth.py`. A JSON `null` is collapsed to `none`. -/
structure OAuthTokenPayload where
  access_token : Option String := none
  refresh_token : Option String := none
  id_token : Option String := none
  error : Option Json := none
  error_code : Option String := none
  code : Option String := none
  message : Option String := none
  error_description : Option String := none
  status : Option String := none
  authorization_code : Option String := none
  code_verifier : Option String := none

/-- `_extract_error_code` from `app/core/clients/oauth.py`. -/
def extract_error_code (p : OAuthTokenPayload) : Option String :=
  match p.error with
  | some (.obj fields) =>
      match pyOrJ (py_get fields "code") (py_get fields "error") with
      | some (.str s) => some s
      | _ => none
  | some (.str s) => some s
  | _ => pyOrS p.error_code p.code

/-- `_extract_error_message` from `app/core/clients/oauth.py`. -/
def extract_error_message (p : OAuthTokenPayload) : Option String :=
  match p.error with
  | some (.obj fields) =>
      match pyOrJ (py_get fields "message") (py_get fields "error_description") with
      | some (.str s) => some s
      | _ => none
  | some (.str s) => pyOrS p.error_description (some s)
  | _ => p.message

/-- `_oauth_error_from_payload` from `app/core/clients/oauth.py`. -/
def oauth_error_from_payload (p : OAuthTokenPayload) (status_code : Nat) : OAuthError :=
  { code := pyOrStr (extract_error_code p) ("http_" ++ toString status_code),
    message := pyOrStr (extract_error_message p)
      ("OAuth request failed (" ++ toString status_code ++ ")"),
    status_code := some status_code }

/-- `_is_pending_error` from `app/core/clients/oauth.py`. -/
def is_pending_error (p : OAuthTokenPayload) : Bool :=
  (match extract_error_code p with
   | some s => s = "authorization_pending" || s = "slow_down"
   | none => false)
  ||
  (match p.status with
   | some s => decide (s ≠ "") && (py_lower s = "pending" || py_lower s = "authorization_pending")
   | none => false)

/-- `_parse_tokens` from `app/core/clients/oauth.py`. -/
def parse_tokens (p : OAuthTokenPayload) : Except OAuthError OAuthTokens :=
  match p.access_token, p.refresh_token, p.id_token with
  | some a, some r, some i =>
      if a = "" || r = "" || i = "" then
        .error ⟨"invalid_response", "OAuth response missing tokens", none⟩
      else .ok ⟨a, r, i⟩
  | _, _, _ => .error ⟨"invalid_response", "OAuth response missing tokens", none⟩

/-- Observable outcome of `exchange_device_token`: `pending` is the
`return None` keep-polling signal; `delegate` is the tail call to
`exchange_authorization_code` (a network call that returns tokens or
raises, never a pending signal); `failure` is a raised `OAuthError`. -/
inductive DeviceTokenResult where
  | pending : DeviceTokenResult
  | tokens (t : OAuthTokens) : DeviceTokenResult
  | delegate (authorization_code code_verifier redirect_uri : String) : DeviceTokenResult
  | failure (e : OAuthError) : DeviceTokenResult

/-- `exchange_device_token` from `app/core/clients/oauth.py`, as a function
of the upstream HTTP status and the (validated) response payload; `base`
is the rstripped auth base URL. -/
def exchange_device_token (base : String) (status : Nat) (p : OAuthTokenPayload) :
    DeviceTokenResult :=
  if status = 403 ∨ status = 404 then .pending
  else if 400 ≤ status then
    if is_pending_error p then .pending
    else .failure (oauth_error_from_payload p status)
  else if is_pending_error p then .pending
  else if opt_str_truthy p.authorization_code then
    if opt_str_truthy p.code_verifier then
      .delegate (p.authorization_code.getD "") (p.code_verifier.getD "")
        (base ++ "/deviceauth/callback")
    else .failure ⟨"invalid_response", "Device auth response missing code verifier", none⟩
  else
    match parse_tokens p with
    | .ok t => .tokens t
    | .error e => .failure e

/-- The `DeviceCodePayload` pydantic model (`app/core/auth/models`, outside
the proxied core), with exactly the fields read by `request_device_code`.
The ISO-8601 `expires_at` string and `datetime.fromisoformat` are
abstracted: `expires_at_parsed` is the instant the string denotes, as
epoch seconds, and `none` when `expires_at` is missing or unparsable (the
`ValueError` path). -/
structure DeviceCodePayload where
  user_code : Option String := none
  device_auth_id : Option String := none
  interval : Option Int := none
  expires_in : Option Int := none
  expires_at_parsed : Option ℚ := none

/-- `DeviceCode` from `app/core/clients/oauth.py`. -/
structure DeviceCode where
  verification_url : String
  user_code : String
  device_auth_id : String
  interval_seconds : Int
  expires_in_seconds : Int
deriving DecidableEq

/-- `_expires_in_seconds` from `app/core/clients/oauth.py`:
`(parsed - now).total_seconds()`, `None` when not strictly positive, else
`int(delta)`. -/
def expires_in_seconds (now : ℚ) (parsed : Option ℚ) : Option Int :=
  match parsed with
  | none => none
  | some t => if t - now ≤ 0 then none else some (py_int (t - now))

/-- `request_device_code` from `app/core/clients/oauth.py`, as a function
of the upstream HTTP status and the response payload (`none` models a
payload that fails `DeviceCodePayload.model_validate`); `auth_base` is the
rstripped auth base URL, `now` the current instant in epoch seconds. -/
def request_device_code (now : ℚ) (auth_base : String) (status : Nat)
    (payload : Option DeviceCodePayload) : Except OAuthError DeviceCode :=
  if 400 ≤ status then
    if status = 404 then
      .error ⟨"device_auth_unavailable",
        "Device code login is not enabled for this Codex server. Use the browser login or verify the server URL.",
        some status⟩
    else
      .error ⟨"device_auth_failed",
        "Device code request failed with status " ++ toString status, some status⟩
  else
    match payload with
    | none => .error ⟨"invalid_response", "Device auth response invalid", none⟩
    | some p =>
        let interval := p.interval.getD 0
        let expires0 := p.expires_in.getD 0
        let expires_in :=
          if expires0 ≤ 0 then
            match expires_in_seconds now p.expires_at_parsed with
            | some v => if v = 0 then 900 else v
            | none => 900
          else expires0
        if !opt_str_truthy p.user_code || !opt_str_truthy p.device_auth_id then
          .error ⟨"invalid_response", "Device auth response missing fields", none⟩
        else
          .ok ⟨auth_base ++ "/codex/device", p.user_code.getD "", p.device_auth_id.getD "",
            interval, expires_in⟩

/-! ## `app/modules/accounts/auth_manager.py` -/

/-- `AccountStatus` from `app/db/models` (values as used across `app/`). -/
inductive AccountStatus where
  | ACTIVE : AccountStatus
  | RATE_LIMITED : AccountStatus
  | QUOTA_EXCEEDED : AccountStatus
  | PAUSED : AccountStatus
  | DEACTIVATED : AccountStatus
deriving DecidableEq

/-- The `Account` row fields read and written by
`AuthManager.refresh_account` (encrypted token blobs carried as opaque
strings, instants as epoch seconds). -/
structure Account where
  id : String
  email : Option String
  plan_type : Option String
  access_token_encrypted : String
  refresh_token_encrypted : String
  id_token_encrypted : String
  last_refresh : ℚ
  status : AccountStatus
  deactivation_reason : Option String
deriving DecidableEq

/-- `RefreshError` from `app/core/auth/refresh` (outside the proxied core):
a code, a message, and the permanent/transient classification consulted by
`refresh_account`. -/
structure RefreshError where
  code : String
  message : String
  is_permanent : Bool
deriving DecidableEq

/-- The successful result of `refresh_access_token` (outside the proxied
core): the fresh token triple plus optional plan type and email. -/
structure RefreshResult where
  access_token : String
  refresh_token : String
  id_token : String
  plan_type : Option String
  email : Option String

/-- A call made on the accounts repository port by `refresh_account`. -/
inductive RepoCall where
  | update_status (account_id : String) (status : AccountStatus)
      (deactivation_reason : Option String) : RepoCall
  | update_tokens (account_id : String) (access refresh id : String)
      (last_refresh : ℚ) (plan_type : Option String) (email : Option String) : RepoCall
deriving DecidableEq

/-- `AuthManager.refresh_account` from `app/modules/accounts/auth_manager.py`.
The decrypt/network/encrypt collaborators are abstracted: `result` is the
outcome of `refresh_access_token` on the decrypted refresh token,
`encrypt` the `TokenEncryptor`, `codes` the `PERMANENT_FAILURE_CODES` map
(from `app/core/balancer`, outside the proxied core), `default_plan` the
`DEFAULT_PLAN` constant, `now` the `utcnow()` instant. Returns the Python
outcome (the re-raised error or the returned account), the account object
after its in-place mutations, and the repository calls made. -/
def refresh_account (codes : List (String × String)) (encrypt : String → String)
    (default_plan : String) (now : ℚ) (result : Except RefreshError RefreshResult)
    (account : Account) : Except RefreshError Account × Account × List RepoCall :=
  match result with
  | .error exc =>
      if exc.is_permanent then
        let reason := (py_get codes exc.code).getD exc.message
        let acc := { account with status := .DEACTIVATED, deactivation_reason := some reason }
        (.error exc, acc, [.update_status account.id .DEACTIVATED (some reason)])
      else
        (.error exc, account, [])
  | .ok r =>
      let plan :=
        match r.plan_type with
        | some _ => some (coerce_account_plan_type r.plan_type (pyOrStr account.plan_type default_plan))
        | none =>
            if opt_str_truthy account.plan_type then account.plan_type
            else some default_plan
      let email :=
        match r.email with
        | some e => if e = "" then account.email else some e
        | none => account.email
      let acc := { account with
        access_token_encrypted := encrypt r.access_token,
        refresh_token_encrypted := encrypt r.refresh_token,
        id_token_encrypted := encrypt r.id_token,
        last_refresh := now,
        plan_type := plan,
        email := email }
      (.ok acc, acc,
        [.update_tokens account.id acc.access_token_encrypted acc.refresh_token_encrypted
          acc.id_token_encrypted now acc.plan_type acc.email])

/-! ## `app/modules/proxy/helpers.py` -/

/-- The credits columns of a `UsageHistory` row (`app/db/models`), the only
columns read by `_aggregate_credits`; `credits_balance` is an exact
numeric column, modelled as a rational. -/
structure UsageHistoryCredits where
  credits_has : Option Bool
  credits_unlimited : Option Bool
  credits_balance : Option ℚ
deriving DecidableEq

/-- The accumulator loop of `_aggregate_credits`: threads
`(has_data, has_credits, unlimited, balance_total)` through the entries. -/
def aggregate_credits_loop :
    List UsageHistoryCredits → Bool → Bool → Bool → ℚ → Bool × Bool × Bool × ℚ
  | [], has_data, has_credits, unlimited, total => (has_data, has_credits, unlimited, total)
  | e :: rest, has_data, has_credits, unlimited, total =>
      if e.credits_has = none ∧ e.credits_unlimited = none ∧ e.credits_balance = none then
        aggregate_credits_loop rest has_data has_credits unlimited total
      else
        aggregate_credits_loop rest true
          (has_credits || decide (e.credits_has = some true))
          (unlimited || decide (e.credits_unlimited = some true))
          (match e.credits_balance with
           | some b => if e.credits_unlimited = some true then total else total + b
           | none => total)

/-- `_aggregate_credits` from `app/modules/proxy/helpers.py`. -/
def aggregate_credits (entries : List UsageHistoryCredits) : Option (Bool × Bool × ℚ) :=
  match aggregate_credits_loop entries false false false 0 with
  | (has_data, has_credits, unlimited, total) =>
      if has_data then some (has_credits || unlimited, unlimited, total) else none

/-- Python `"true" if b else "false"`. -/
def bool_str (b : Bool) : String := if b then "true" else "false"

/-- Round half to even at integer precision (the rounding used by Python
float formatting). -/
def half_even_round (q : ℚ) : Int :=
  let f := ⌊q⌋
  let frac := q - f
  if frac < 1/2 then f
  else if 1/2 < frac then f + 1
  else if f % 2 = 0 then f else f + 1

/-- The two fractional digits of a cents count. -/
def two_frac_digits (a : Nat) : String :=
  String.mk [Nat.digitChar (a / 10 % 10), Nat.digitChar (a % 10)]

/-- Python `f-string` formatting with `:.2f`, over exact rationals: round
half to even at two decimals and always print exactly two fractional
digits (binary floating-point representation error is not modelled). -/
def format_two_decimal (q : ℚ) : String :=
  let cents := half_even_round (q * 100)
  let sign := if cents < 0 then "-" else ""
  let a := cents.natAbs
  sign ++ toString (a / 100) ++ "." ++ two_frac_digits a

/-- `_credits_headers` from `app/modules/proxy/helpers.py`. -/
def credits_headers (entries : List UsageHistoryCredits) : List (String × String) :=
  match aggregate_credits entries with
  | none => []
  | some (has_credits, unlimited, balance_total) =>
      [("x-codex-credits-has-credits", bool_str has_credits),
       ("x-codex-credits-unlimited", bool_str unlimited),
       ("x-codex-credits-balance", format_two_decimal balance_total)]

/-- The `used_percent` column of a `UsageWindowRow`
(`app/core/usage/types`), the only column `_normalize_used_percent`
reads. -/
structure UsageWindowRow where
  used_percent : Option ℚ
deriving DecidableEq

/-- The fields of `UsageWindowSummary` (`app/core/usage/types`) read by
`_window_snapshot`. -/
structure UsageWindowSummary where
  used_percent : Option ℚ
  reset_at : Option ℚ
  window_minutes : Option ℚ
deriving DecidableEq

/-- `_normalize_used_percent` from `app/modules/proxy/helpers.py`. -/
def normalize_used_percent (value : Option ℚ) (rows : List UsageWindowRow) : Option ℚ :=
  match value with
  | some v => some v
  | none =>
      let values := rows.filterMap (fun r => r.used_percent)
      if values.isEmpty then none else some (values.sum / (values.length : ℚ))

/-- `_percent_to_int` from `app/modules/proxy/helpers.py`:
`int(max(0.0, min(100.0, value)))`. -/
def percent_to_int (value : ℚ) : Int :=
  py_int (max 0 (min 100 value))

/-- `RateLimitWindowSnapshotData` from `app/modules/proxy/types`. -/
structure RateLimitWindowSnapshotData where
  used_percent : Int
  limit_window_seconds : Int
  reset_after_seconds : Int
  reset_at : Int
deriving DecidableEq

/-- `_window_snapshot` from `app/modules/proxy/helpers.py`;
`default_window_minutes` is `usage_core.default_window_minutes(window)`
(`app/core/usage`, outside the proxied core). -/
def window_snapshot (default_window_minutes : Option ℚ)
    (summary : Option UsageWindowSummary) (rows : List UsageWindowRow)
    (now_epoch : Int) : Option RateLimitWindowSnapshotData :=
  match summary with
  | none => none
  | some summ =>
      match normalize_used_percent summ.used_percent rows with
      | none => none
      | some up =>
          match summ.reset_at with
          | none => none
          | some ra =>
              let wm : Option ℚ :=
                match summ.window_minutes with
                | some w => if w = 0 then default_window_minutes else some w
                | none => default_window_minutes
              match wm with
              | none => none
              | some w =>
                  if w = 0 then none
                  else
                    some { used_percent := percent_to_int up,
                           limit_window_seconds := py_int (w * 60),
                           reset_after_seconds := max 0 (py_int ra - now_epoch),
                           reset_at := py_int ra }

/-! ## The balancer (`app/core/balancer`)

The balancer package is not part of the proxied sources (only its unit
tests and callers are), so its selection logic is modelled from the
specification (spec section 4.F) and checked against the unit tests in
`tests/unit/test_load_balancer.py`. -/

/-- Modelled from the spec: the in-memory `AccountState` projection
(spec section 3), with the constructor signature used by
`tests/unit/test_load_balancer.py`; instants are epoch seconds. -/
structure AccountState where
  account_id : String
  status : AccountStatus
  used_percent : ℚ
  reset_at : Option ℚ := none
  cooldown_until : Option ℚ := none
  error_count : Nat := 0
  last_error_at : Option ℚ := none
  deactivation_reason : Option String := none
deriving DecidableEq

/-- Modelled from the spec: the `Selection` returned by `select_account`. -/
structure Selection where
  account : Option AccountState
  error_message : Option String
deriving DecidableEq

/-- Is the optional deadline strictly in the future of `now`? -/
def future_deadline (d : Option ℚ) (now : ℚ) : Bool :=
  match d with
  | some t => decide (now < t)
  | none => false

/-- Modelled from the spec: step 2 of `select_account` (spec section 4.F)
— clear an expired cooldown (also resetting `last_error_at` and
`error_count`), then return a RATE_LIMITED account whose `reset_at` has
passed to ACTIVE (`used_percent` is left to be refreshed by the next
usage sample, as the spec allows). -/
def normalize_state (now : ℚ) (s : AccountState) : AccountState :=
  let s1 :=
    match s.cooldown_until with
    | some c =>
        if c ≤ now then { s with cooldown_until := none, last_error_at := none, error_count := 0 }
        else s
    | none => s
  if s1.status = .RATE_LIMITED
      ∧ (match s1.reset_at with | some r => decide (r ≤ now) | none => false) = true then
    { s1 with status := .ACTIVE }
  else s1

/-- Modelled from the spec: eligibility (spec section 4.F step 3) —
status ACTIVE and neither `cooldown_until` nor `reset_at` in the
future. -/
def is_eligible (s : AccountState) (now : ℚ) : Bool :=
  decide (s.status = .ACTIVE) && !future_deadline s.cooldown_until now
    && !future_deadline s.reset_at now

/-- Modelled from the spec: step 1 of `select_account` — drop PAUSED and
DEACTIVATED accounts. -/
def candidate_states (states : List AccountState) : List AccountState :=
  states.filter (fun s => decide (s.status ≠ .PAUSED) && decide (s.status ≠ .DEACTIVATED))

/-- The candidates after the cooldown/reset normalisation pass. -/
def normalized_states (states : List AccountState) (now : ℚ) : List AccountState :=
  (candidate_states states).map (normalize_state now)

/-- The eligible accounts among the normalised candidates. -/
def eligible_accounts (states : List AccountState) (now : ℚ) : List AccountState :=
  (normalized_states states now).filter (fun s => is_eligible s now)

/-- Modelled from the spec: the wait hint of one skipped candidate —
`max(cooldown_until, reset_at) - now` when that deadline is in the
future. -/
def wait_of (s : AccountState) (now : ℚ) : Option ℚ :=
  let d : Option ℚ :=
    match s.cooldown_until, s.reset_at with
    | some c, some r => some (max c r)
    | some c, none => some c
    | none, some r => some r
    | none, none => none
  match d with
  | some t => if now < t then some (t - now) else none
  | none => none

/-- The wait hints of all skipped candidates. -/
def wait_hints (states : List AccountState) (now : ℚ) : List ℚ :=
  (normalized_states states now).filterMap (fun s => wait_of s now)

/-- Modelled from the spec: render a wait in seconds, one decimal for
sub-minute waits (spec section 4.F step 5). -/
def render_wait (w : ℚ) : String :=
  if w < 60 then
    let tenths := py_int (w * 10)
    toString (tenths / 10) ++ "." ++ toString (tenths % 10)
  else toString (py_int w)

/-- Modelled from the spec: the human-readable wait hint. -/
def wait_message (w : ℚ) : String :=
  "Try again in " ++ render_wait w ++ "s"

/-- Modelled from the spec: the selection preference order — strictly
better means lower `used_percent`, then lower `error_count`, then
lexicographically smaller account id. -/
def state_lt (a b : AccountState) : Prop :=
  a.used_percent < b.used_percent
  ∨ (a.used_percent = b.used_percent
      ∧ (a.error_count < b.error_count
          ∨ (a.error_count = b.error_count ∧ str_lt a.account_id b.account_id = true)))

/-- The reflexive closure of the preference order. -/
def state_le (a b : AccountState) : Prop :=
  a.used_percent < b.used_percent
  ∨ (a.used_percent = b.used_percent
      ∧ (a.error_count < b.error_count
          ∨ (a.error_count = b.error_count ∧ str_lt b.account_id a.account_id = false)))

instance state_lt_decidable (a b : AccountState) : Decidable (state_lt a b) := by
  unfold state_lt; exact inferInstance

instance state_le_decidable (a b : AccountState) : Decidable (state_le a b) := by
  unfold state_le; exact inferInstance

/-- Modelled from the spec: fold picking the most-preferred account. -/
def pick_best (x : AccountState) : List AccountState → AccountState
  | [] => x
  | y :: ys => pick_best (if state_lt y x then y else x) ys

/-- Modelled from the spec: `select_account(states, now)`
(spec section 4.F; `app/core/balancer` is not under the proxied sources).
Filter candidates, normalise cooldown/reset, pick the preferred eligible
account; with no eligible account, report the smallest wait hint among
the skipped candidates. -/
def select_account (states : List AccountState) (now : ℚ) : Selection :=
  match eligible_accounts states now with
  | r :: rest => { account := some (pick_best r rest), error_message := none }
  | [] =>
      match wait_hints states now with
      | [] => { account := none, error_message := some "No accounts available" }
      | w :: ws =>
          { account := none, error_message := some (wait_message (ws.foldl min w)) }

/-! ## Claim-side definitions (transcribed from the claims, for comparison
with the source embeddings) -/

/-- The pending signal as the claim words it: an extracted error code equal
to `authorization_pending` or `slow_down`, or a status field whose
lower-cased value is `pending` or `authorization_pending`. -/
def claim_pending_signal (p : OAuthTokenPayload) : Bool :=
  (extract_error_code p = some "authorization_pending")
  || (extract_error_code p = some "slow_down")
  || (match p.status with
      | some s => py_lower s = "pending" || py_lower s = "authorization_pending"
      | none => false)

/-- `expires_in_seconds` derivation as the claim words it: the whole
seconds remaining until the `expires_at` instant, 900 when `expires_at` is
missing, unparsable, or not in the future. -/
def claim_expires (now : ℚ) (parsed : Option ℚ) : Int :=
  match parsed with
  | none => 900
  | some t => if 0 < t - now then py_int (t - now) else 900

/-- The amended derivation: additionally fall back to 900 when less than
one whole second remains (the `or 900` also fires on a derived count of
0). -/
def amended_expires (now : ℚ) (parsed : Option ℚ) : Int :=
  match parsed with
  | none => 900
  | some t => if 1 ≤ t - now then py_int (t - now) else 900

/-- The text a system/developer message contributes to `instructions`, as
the claim words it. -/
def sys_dev_text (m : Json) : Option String :=
  match m with
  | .obj fields =>
      if sys_dev_role fields then content_to_text (py_get fields "content") else none
  | _ => none

/-- Is this message one of role system or developer? -/
def is_sys_dev_msg (m : Json) : Bool :=
  match m with
  | .obj fields => sys_dev_role fields
  | _ => false

/-- The `instructions` value after coercion, as the claim words it: the
system/developer contents joined newline-delimited with empty parts
dropped, appended after any existing non-empty `instructions` string with
a newline separator. -/
def claim_instructions (data : List (String × Json)) (messages : List Json) : String :=
  let extracted := joinNL ((messages.filterMap sys_dev_text).filter (fun p => p ≠ ""))
  match py_get data "instructions" with
  | some (.str s) =>
      if s ≠ "" then (if extracted = "" then s else s ++ "\n" ++ extracted)
      else extracted
  | _ => extracted

/-! ## Theorems -/

/-- C7: `canonicalize_account_plan_type` trims and lower-cases its input,
returning the lower-cased value when it belongs to the recognized account
plan set and the trimmed original otherwise; `"PRO"` maps to `"pro"`,
`"education"` to `"education"`, empty or whitespace-only input to
`None`. -/
theorem canonicalize_account_plan_type_spec :
    (∀ s : String,
      (py_strip s = "" → canonicalize_account_plan_type (some s) = none)
      ∧ (py_strip s ≠ "" → py_lower (py_strip s) ∈ ACCOUNT_PLAN_TYPES →
          canonicalize_account_plan_type (some s) = some (py_lower (py_strip s)))
      ∧ (py_strip s ≠ "" → py_lower (py_strip s) ∉ ACCOUNT_PLAN_TYPES →
          canonicalize_account_plan_type (some s) = some (py_strip s)))
    ∧ canonicalize_account_plan_type (some "PRO") = some "pro"
    ∧ canonicalize_account_plan_type (some "education") = some "education"
    ∧ canonicalize_account_plan_type (some "") = none := by
  refine ⟨fun s => ⟨?_, ?_, ?_⟩, by decide, by decide, by decide⟩
  · intro h
    simp [canonicalize_account_plan_type, clean_plan_type, h]
  · intro h hm
    simp [canonicalize_account_plan_type, clean_plan_type, h, hm]
  · intro h hm
    simp [canonicalize_account_plan_type, clean_plan_type, h, hm]

/-- Witness for C7 at the concrete input `" Pro "`. -/
theorem canonicalize_account_plan_type_spec_witness :
    canonicalize_account_plan_type (some " Pro ") = some (py_lower (py_strip " Pro ")) :=
  (canonicalize_account_plan_type_spec.1 " Pro ").2.1 (by decide) (by decide)

/-- C4: when the token refresh fails with an error classified permanent,
`refresh_account` sets the account status to DEACTIVATED with the reason
from `PERMANENT_FAILURE_CODES` for the error code (falling back to the
error message), persists the new status through the repository's
`update_status`, and re-raises the error; a non-permanent failure is
re-raised with the account unchanged and no repository call. -/
theorem refresh_account_failure_spec (codes : List (String × String))
    (encrypt : String → String) (default_plan : String) (now : ℚ)
    (exc : RefreshError) (account : Account) :
    (exc.is_permanent = true →
      refresh_account codes encrypt default_plan now (.error exc) account =
        (.error exc,
         { account with
            status := .DEACTIVATED,
            deactivation_reason := some ((py_get codes exc.code).getD exc.message) },
         [.update_status account.id .DEACTIVATED
            (some ((py_get codes exc.code).getD exc.message))]))
    ∧ (exc.is_permanent = false →
      refresh_account codes encrypt default_plan now (.error exc) account =
        (.error exc, account, [])) := by
  constructor <;> intro h <;> simp [refresh_account, h]

/-- Witness for C4: a permanent `refresh_token_expired` failure on a
concrete account. -/
theorem refresh_account_failure_spec_witness :
    refresh_account [("refresh_token_expired", "Refresh token expired")] id "plus" 0
      (.error ⟨"refresh_token_expired", "boom", true⟩)
      { id := "acc-1", email := none, plan_type := some "pro",
        access_token_encrypted := "at", refresh_token_encrypted := "rt",
        id_token_encrypted := "it", last_refresh := 0, status := .ACTIVE,
        deactivation_reason := none } =
      (.error ⟨"refresh_token_expired", "boom", true⟩,
       { id := "acc-1", email := none, plan_type := some "pro",
         access_token_encrypted := "at", refresh_token_encrypted := "rt",
         id_token_encrypted := "it", last_refresh := 0, status := .DEACTIVATED,
         deactivation_reason := some "Refresh token expired" },
       [.update_status "acc-1" .DEACTIVATED (some "Refresh token expired")]) :=
  (refresh_account_failure_spec [("refresh_token_expired", "Refresh token expired")] id
    "plus" 0 ⟨"refresh_token_expired", "boom", true⟩
    { id := "acc-1", email := none, plan_type := some "pro",
      access_token_encrypted := "at", refresh_token_encrypted := "rt",
      id_token_encrypted := "it", last_refresh := 0, status := .ACTIVE,
      deactivation_reason := none }).1 rfl

/-- C9: `_percent_to_int` clamps to the closed interval [0, 100] before
truncating, so every window snapshot built by `_window_snapshot` carries a
`used_percent` integer in [0, 100], whatever the stored usage samples
were. -/
theorem window_snapshot_percent_spec :
    (∀ value : ℚ, 0 ≤ percent_to_int value ∧ percent_to_int value ≤ 100)
    ∧ (∀ dwm summary rows now_epoch snap,
        window_snapshot dwm summary rows now_epoch = some snap →
        0 ≤ snap.used_percent ∧ snap.used_percent ≤ 100) := by
  have hmain : ∀ value : ℚ, 0 ≤ percent_to_int value ∧ percent_to_int value ≤ 100 := by
    intro value
    have h0 : (0:ℚ) ≤ max 0 (min 100 value) := le_max_left _ _
    have h100 : max 0 (min 100 value) ≤ 100 := max_le (by norm_num) (min_le_left _ _)
    unfold percent_to_int py_int
    rw [if_pos h0]
    refine ⟨Int.floor_nonneg.mpr h0, ?_⟩
    calc ⌊max 0 (min 100 value)⌋ ≤ ⌊(100:ℚ)⌋ := Int.floor_le_floor h100
      _ = 100 := by norm_num
  refine ⟨hmain, ?_⟩
  intro dwm summary rows now_epoch snap h
  unfold window_snapshot at h
  rcases dwm with _ | d <;> repeat' split at h
  all_goals try dsimp only [] at h
  all_goals repeat' split at h
  all_goals try exact Option.noConfusion h
  all_goals injection h with h1
  all_goals subst h1
  all_goals exact hmain _

/-- Witness for C9: a snapshot built from an out-of-range stored sample of
150 percent still reports 100. -/
theorem window_snapshot_percent_spec_witness :
    0 ≤ (100 : Int) ∧ (100 : Int) ≤ 100 := by
  have h : window_snapshot (some 5) (some ⟨some 150, some 1000, none⟩) [] 0 =
      some ⟨100, 300, 1000, 1000⟩ := by
    norm_num [window_snapshot, normalize_used_percent, percent_to_int, py_int]
  exact window_snapshot_percent_spec.2 (some 5) (some ⟨some 150, some 1000, none⟩) [] 0
    ⟨100, 300, 1000, 1000⟩ h

/-- The `has_data` component of the credits-aggregation loop: true iff it
started true or some entry carries any credits data. -/
theorem aggregate_credits_loop_fst (entries : List UsageHistoryCredits) :
    ∀ hd hc ul t, (aggregate_credits_loop entries hd hc ul t).1 =
      (hd || entries.any (fun e =>
        !(decide (e.credits_has = none) && decide (e.credits_unlimited = none)
          && decide (e.credits_balance = none)))) := by
  induction entries with
  | nil => intro hd hc ul t; simp [aggregate_credits_loop]
  | cons e rest ih =>
    intro hd hc ul t
    by_cases h1 : e.credits_has = none <;> by_cases h2 : e.credits_unlimited = none <;>
      by_cases h3 : e.credits_balance = none <;>
      simp [aggregate_credits_loop, h1, h2, h3, ih]

/-- `aggregate_credits` returns `none` exactly when no entry carries any
credits data. -/
theorem aggregate_credits_eq_none_iff (entries : List UsageHistoryCredits) :
    aggregate_credits entries = none ↔
      ∀ e ∈ entries,
        e.credits_has = none ∧ e.credits_unlimited = none ∧ e.credits_balance = none := by
  have hfst := aggregate_credits_loop_fst entries false false false 0
  unfold aggregate_credits
  rcases hloop : aggregate_credits_loop entries false false false 0 with ⟨hd, hc, ul, t⟩
  rw [hloop] at hfst
  simp only [Bool.false_or] at hfst
  cases hd with
  | false =>
    refine iff_of_true (by simp) ?_
    intro e he
    have hpred := List.any_eq_false.mp hfst.symm e he
    simp only [Bool.not_eq_true', Bool.and_eq_false_iff] at hpred
    simp at hpred
    exact ⟨hpred.1.1, hpred.1.2, hpred.2⟩
  | true =>
    refine iff_of_false (by simp) ?_
    intro hall
    obtain ⟨e, he, hpe⟩ := List.any_eq_true.mp hfst.symm
    have h3 := hall e he
    simp [h3.1, h3.2.1, h3.2.2] at hpe

/-- C8: when any usage-history entry carries credits data,
`_credits_headers` produces exactly the three keys
`x-codex-credits-has-credits`, `x-codex-credits-unlimited` (each rendered
as `"true"`/`"false"`) and `x-codex-credits-balance` (the aggregated
balance as a fixed two-decimal string); with no credits data the mapping
is empty. -/
theorem credits_headers_spec (entries : List UsageHistoryCredits) :
    (credits_headers entries = [] ↔
      ∀ e ∈ entries,
        e.credits_has = none ∧ e.credits_unlimited = none ∧ e.credits_balance = none)
    ∧ (∀ has_credits unlimited balance_total,
        aggregate_credits entries = some (has_credits, unlimited, balance_total) →
        credits_headers entries =
          [("x-codex-credits-has-credits", bool_str has_credits),
           ("x-codex-credits-unlimited", bool_str unlimited),
           ("x-codex-credits-balance", format_two_decimal balance_total)]
        ∧ (bool_str has_credits = "true" ∨ bool_str has_credits = "false")
        ∧ (bool_str unlimited = "true" ∨ bool_str unlimited = "false")
        ∧ ∃ ipart d1 d2,
            format_two_decimal balance_total = ipart ++ "." ++ String.mk [d1, d2]) := by
  constructor
  · rw [← aggregate_credits_eq_none_iff]
    unfold credits_headers
    rcases ha : aggregate_credits entries with _ | ⟨hc, ul, t⟩ <;> simp
  · intro hc ul t ha
    refine ⟨by simp [credits_headers, ha], ?_, ?_, ?_⟩
    · cases hc <;> simp [bool_str]
    · cases ul <;> simp [bool_str]
    · exact ⟨(if half_even_round (t * 100) < 0 then "-" else "")
          ++ toString ((half_even_round (t * 100)).natAbs / 100),
        Nat.digitChar ((half_even_round (t * 100)).natAbs / 10 % 10),
        Nat.digitChar ((half_even_round (t * 100)).natAbs % 10), by
          simp [format_two_decimal, two_frac_digits, String.append_assoc]⟩

/-- Witness for C8: one entry with credits data and balance 5/2; the
balance header renders as a two-decimal string. -/
theorem credits_headers_spec_witness :
    credits_headers [⟨some true, some false, some (5/2)⟩] =
      [("x-codex-credits-has-credits", bool_str true),
       ("x-codex-credits-unlimited", bool_str false),
       ("x-codex-credits-balance", format_two_decimal (5/2))]
    ∧ (bool_str true = "true" ∨ bool_str true = "false")
    ∧ (bool_str false = "true" ∨ bool_str false = "false")
    ∧ ∃ ipart d1 d2, format_two_decimal (5/2) = ipart ++ "." ++ String.mk [d1, d2] :=
  (credits_headers_spec [⟨some true, some false, some (5/2)⟩]).2 true false (5/2)
    (by simp [aggregate_credits, aggregate_credits_loop])

/-- `split_ws_aux` on a whitespace-free suffix yields a single chunk. -/
theorem split_ws_aux_no_space (w : List Char) (hw : ∀ c ∈ w, is_py_space c = false) :
    ∀ acc, split_ws_aux w acc = [acc.reverse ++ w] := by
  induction w with
  | nil => intro acc; simp [split_ws_aux]
  | cons c cs ih =>
    intro acc
    have hc : is_py_space c = false := hw c (List.mem_cons_self _ _)
    have ih2 := ih (fun x hx => hw x (List.mem_cons_of_mem _ hx)) (c :: acc)
    simp [split_ws_aux, hc, ih2]

/-- A whitespace-free word appended after a space is one of the chunks. -/
theorem mem_split_ws_aux_append (w : List Char) (hw : ∀ c ∈ w, is_py_space c = false)
    (l : List Char) : ∀ acc, w ∈ split_ws_aux (l ++ ' ' :: w) acc := by
  induction l with
  | nil =>
    intro acc
    have hsp : is_py_space ' ' = true := by decide
    simp only [List.nil_append, split_ws_aux, hsp, if_true]
    rw [split_ws_aux_no_space w hw []]
    simp
  | cons c cs ih =>
    intro acc
    simp only [List.cons_append, split_ws_aux]
    by_cases hc : is_py_space c = true
    · rw [if_pos hc]
      exact List.mem_cons_of_mem _ (ih [])
    · rw [if_neg hc]
      exact ih (c :: acc)

/-- `_ensure_offline_access` always leaves `offline_access` among the
space-separated words of its result. -/
theorem ensure_offline_access_has (scope : String) :
    "offline_access" ∈ py_split_ws (ensure_offline_access scope) := by
  unfold ensure_offline_access
  by_cases h : (py_split_ws scope).contains "offline_access" = true
  · rw [if_pos h]
    exact List.elem_iff.mp h
  · rw [if_neg h]
    unfold py_split_ws
    have hdata : (scope ++ " offline_access").data = scope.data ++ ' ' :: "offline_access".data := by
      cases scope
      rfl
    rw [hdata]
    have hmem := mem_split_ws_aux_append "offline_access".data (by decide) scope.data []
    exact List.mem_map.mpr ⟨"offline_access".data,
      List.mem_filter.mpr ⟨hmem, by decide⟩, rfl⟩

/-- C5 counterexample: `build_authorization_url` invoked with the explicit
scope argument `"openid"` produces a `scope` query parameter equal to
`"openid"`, which does not contain `offline_access` — the claim that every
invocation, including ones passing an explicit scope, yields a scope with
`offline_access` is false on the code (the explicit argument is used
verbatim and `_ensure_offline_access` is only applied to the settings
default). -/
theorem build_authorization_url_scope_counterexample :
    py_get (build_authorization_url_params
        ⟨"https://auth.example", "client-1", "https://cb.example",
         "openid profile offline_access"⟩
        "state-1" "challenge-1" none none none (some "openid")) "scope" = some "openid"
    ∧ "offline_access" ∉ py_split_ws "openid" := by
  constructor
  · decide
  · decide

/-- C5 (amended): when the scope argument is omitted (or None or the empty
string, both falsy), the scope query parameter of the produced
authorization URL contains `offline_access`; an explicit non-empty scope
argument is used verbatim and may lack it. -/
theorem build_authorization_url_scope_spec (settings : OAuthSettings)
    (state code_challenge : String) (base_url client_id redirect_uri : Option String)
    (scope : Option String) (hscope : scope = none ∨ scope = some "") :
    ∃ v, py_get (build_authorization_url_params settings state code_challenge base_url
        client_id redirect_uri scope) "scope" = some v
      ∧ "offline_access" ∈ py_split_ws v := by
  refine ⟨ensure_offline_access settings.oauth_scope, ?_, ensure_offline_access_has _⟩
  rcases hscope with h | h <;> subst h <;>
    simp [build_authorization_url_params, py_get, pyOrStr]

/-- Witness for C5 at a concrete settings object with the scope argument
omitted. -/
theorem build_authorization_url_scope_spec_witness :
    ∃ v, py_get (build_authorization_url_params
        ⟨"https://auth.example", "client-1", "https://cb.example", "openid profile"⟩
        "state-1" "challenge-1" none none none none) "scope" = some v
      ∧ "offline_access" ∈ py_split_ws v :=
  build_authorization_url_scope_spec
    ⟨"https://auth.example", "client-1", "https://cb.example", "openid profile"⟩
    "state-1" "challenge-1" none none none none (Or.inl rfl)

/-- C10 counterexample: with `expires_in` absent and `expires_at` parsing
to half a second in the future (so strictly in the future), the claimed
derivation gives the whole-second count 0, but `request_device_code`
returns 900 (the `or 900` also fires on a derived count of 0). -/
theorem request_device_code_expires_counterexample :
    (0:ℚ) < 1/2
    ∧ (request_device_code 0 "https://auth.example" 200
        (some ⟨some "ucode", some "dauth", none, none, some (1/2)⟩)).map
        (fun dc => dc.expires_in_seconds) = .ok 900
    ∧ claim_expires 0 (some (1/2)) = 0
    ∧ (900 : Int) ≠ 0 := by
  refine ⟨by norm_num, ?_, ?_, by decide⟩
  · norm_num [request_device_code, expires_in_seconds, py_int, opt_str_truthy, Except.map]
    rfl
  · norm_num [claim_expires, py_int]

/-- C10 (amended): on the success path, `request_device_code` defaults
`interval_seconds` to 0 when the payload omits the interval; when
`expires_in` is absent or non-positive it derives `expires_in_seconds`
from the whole seconds remaining until the `expires_at` instant, falling
back to 900 when `expires_at` is missing, unparsable, not in the future,
or less than one whole second remains. -/
theorem request_device_code_spec (now : ℚ) (auth_base : String) (status : Nat)
    (p : DeviceCodePayload) (dc : DeviceCode)
    (h : request_device_code now auth_base status (some p) = .ok dc) :
    (p.interval = none → dc.interval_seconds = 0)
    ∧ (p.expires_in.getD 0 ≤ 0 →
        dc.expires_in_seconds = amended_expires now p.expires_at_parsed) := by
  unfold request_device_code at h
  by_cases h400 : 400 ≤ status
  · rw [if_pos h400] at h
    split at h <;> exact Except.noConfusion h
  · rw [if_neg h400] at h
    dsimp only [] at h
    split at h
    · exact Except.noConfusion h
    · injection h with h1
      subst h1
      constructor
      · intro hi
        simp [hi]
      · intro he
        rw [if_pos he]
        rcases hp : p.expires_at_parsed with _ | t
        · simp [expires_in_seconds, amended_expires]
        · simp only [expires_in_seconds, amended_expires]
          by_cases hd : t - now ≤ 0
          · rw [if_pos hd, if_neg (by linarith)]
          · rw [if_neg hd]
            dsimp only
            have hd' : 0 ≤ t - now := le_of_not_le hd
            have hfl : py_int (t - now) = ⌊t - now⌋ := by
              unfold py_int
              rw [if_pos hd']
            by_cases hz : py_int (t - now) = 0
            · rw [if_pos hz]
              have : ¬ (1:ℚ) ≤ t - now := by
                intro hge
                have h1 : (1:Int) ≤ ⌊t - now⌋ := by
                  rw [Int.le_floor]
                  exact_mod_cast hge
                rw [hfl] at hz
                omega
              rw [if_neg this]
            · rw [if_neg hz]
              have h1 : (1:Int) ≤ ⌊t - now⌋ := by
                have h0 : (0:Int) ≤ ⌊t - now⌋ := Int.floor_nonneg.mpr hd'
                rw [hfl] at hz
                omega
              have : (1:ℚ) ≤ t - now := by
                have := Int.le_floor.mp h1
                exact_mod_cast this
              rw [if_pos this, hfl]

/-- Witness for C10: interval omitted and `expires_at` 30 seconds in the
future with `expires_in` absent. -/
theorem request_device_code_spec_witness :
    ((⟨"https://auth.example/codex/device", "ucode", "dauth", 0, 30⟩ :
        DeviceCode).interval_seconds = 0)
    ∧ (⟨"https://auth.example/codex/device", "ucode", "dauth", 0, 30⟩ :
        DeviceCode).expires_in_seconds = amended_expires 0 (some 30) := by
  have h : request_device_code 0 "https://auth.example" 200
      (some ⟨some "ucode", some "dauth", none, none, some 30⟩) =
      .ok ⟨"https://auth.example/codex/device", "ucode", "dauth", 0, 30⟩ := by
    norm_num [request_device_code, expires_in_seconds, py_int, opt_str_truthy]
    rfl
  have hs := request_device_code_spec 0 "https://auth.example" 200
    ⟨some "ucode", some "dauth", none, none, some 30⟩
    ⟨"https://auth.example/codex/device", "ucode", "dauth", 0, 30⟩ h
  exact ⟨hs.1 rfl, hs.2 (by decide)⟩

/-- `_is_pending_error` agrees with the claim-side pending signal (the
`status and ...` truthiness guard is redundant: the empty string
lower-cases to itself and matches neither keyword). -/
theorem is_pending_error_eq (p : OAuthTokenPayload) :
    is_pending_error p = claim_pending_signal p := by
  rcases hec : extract_error_code p with _ | c <;>
    rcases hst : p.status with _ | s <;>
      simp only [is_pending_error, claim_pending_signal, hec, hst]
  · simp
  · by_cases hs : s = ""
    · subst hs
      simp [py_lower]
    · simp [hs]
  · simp
  · by_cases hs : s = ""
    · subst hs
      simp [py_lower, Bool.or_assoc]
    · simp [hs, Bool.or_assoc]

/-- C6: `exchange_device_token` signals keep-polling (returns `None`)
exactly when the HTTP status is 403 or 404 or the payload carries a
pending signal (extracted error code `authorization_pending` or
`slow_down`, or a status field lower-casing to `pending` or
`authorization_pending`); any other response with status at least 400
raises the structured OAuth error built from the payload. -/
theorem exchange_device_token_spec (base : String) (status : Nat) (p : OAuthTokenPayload) :
    (exchange_device_token base status p = .pending ↔
      (status = 403 ∨ status = 404 ∨ claim_pending_signal p = true))
    ∧ (400 ≤ status → status ≠ 403 → status ≠ 404 → claim_pending_signal p = false →
        exchange_device_token base status p = .failure (oauth_error_from_payload p status)) := by
  constructor
  · constructor
    · intro h
      by_cases h34 : status = 403 ∨ status = 404
      · rcases h34 with h34 | h34
        · exact Or.inl h34
        · exact Or.inr (Or.inl h34)
      · right; right
        unfold exchange_device_token at h
        rw [if_neg h34] at h
        by_cases h400 : 400 ≤ status
        · rw [if_pos h400] at h
          by_cases hp : is_pending_error p = true
          · rw [is_pending_error_eq] at hp
            exact hp
          · rw [if_neg hp] at h
            exact DeviceTokenResult.noConfusion h
        · rw [if_neg h400] at h
          by_cases hp : is_pending_error p = true
          · rw [is_pending_error_eq] at hp
            exact hp
          · rw [if_neg hp] at h
            by_cases hac : opt_str_truthy p.authorization_code = true
            · rw [if_pos hac] at h
              by_cases hcv : opt_str_truthy p.code_verifier = true
              · rw [if_pos hcv] at h
                exact DeviceTokenResult.noConfusion h
              · rw [if_neg hcv] at h
                exact DeviceTokenResult.noConfusion h
            · rw [if_neg hac] at h
              rcases hpt : parse_tokens p with e | t <;> rw [hpt] at h <;>
                exact DeviceTokenResult.noConfusion h
    · intro h
      unfold exchange_device_token
      rcases h with h | h | h
      · rw [if_pos (Or.inl h)]
      · rw [if_pos (Or.inr h)]
      · have hp : is_pending_error p = true := by
          rw [is_pending_error_eq]
          exact h
        by_cases h34 : status = 403 ∨ status = 404
        · rw [if_pos h34]
        · rw [if_neg h34]
          by_cases h400 : 400 ≤ status
          · rw [if_pos h400, if_pos hp]
          · rw [if_neg h400, if_pos hp]
  · intro h400 h403 h404 hnp
    unfold exchange_device_token
    have h34 : ¬(status = 403 ∨ status = 404) := by
      rintro (h | h) <;> [exact h403 h; exact h404 h]
    have hp : ¬ is_pending_error p = true := by
      rw [is_pending_error_eq, hnp]
      exact Bool.false_ne_true
    rw [if_neg h34, if_pos h400, if_neg hp]

/-- Witness for C6: a 500 response with an empty payload is a raised
structured error, not a pending signal. -/
theorem exchange_device_token_spec_witness :
    exchange_device_token "https://auth.example" 500 {} =
      .failure (oauth_error_from_payload {} 500) :=
  (exchange_device_token_spec "https://auth.example" 500 {}).2
    (by norm_num) (by decide) (by decide) (by decide)

/-- Inversion for a successful `Except` bind. -/
theorem except_bind_ok {α β : Type} {a : Except String α} {f : α → Except String β} {v : β}
    (h : (a >>= f) = .ok v) : ∃ w, a = .ok w ∧ f w = .ok v := by
  cases a with
  | error e => simp [Bind.bind, Except.bind] at h
  | ok w => exact ⟨w, rfl, by simpa [Bind.bind, Except.bind] using h⟩

/-- `set_key` binds its own key. -/
theorem py_get_set_key_self (l : List (String × Json)) (k : String) (v : Json) :
    py_get (set_key l k v) k = some v := by
  induction l with
  | nil => simp [set_key, py_get]
  | cons kv rest ih =>
    rcases kv with ⟨k0, v0⟩
    by_cases h : k0 = k <;> simp [set_key, py_get, h, ih]

/-- `set_key` leaves other keys alone. -/
theorem py_get_set_key_ne (l : List (String × Json)) (k k' : String) (v : Json)
    (h : k ≠ k') : py_get (set_key l k v) k' = py_get l k' := by
  induction l with
  | nil => simp [set_key, py_get, h]
  | cons kv rest ih =>
    rcases kv with ⟨k0, v0⟩
    by_cases h0 : k0 = k
    · subst h0
      simp [set_key, py_get, h]
    · by_cases h1 : k0 = k'
      · subst h1
        simp [set_key, py_get, h0, Ne.symm h]
      · simp [set_key, py_get, h0, h1, ih]

/-- `remove_key` leaves other keys alone. -/
theorem py_get_remove_key_ne (l : List (String × Json)) (k k' : String)
    (h : k ≠ k') : py_get (remove_key l k) k' = py_get l k' := by
  induction l with
  | nil => rfl
  | cons kv rest ih =>
    rcases kv with ⟨k0, v0⟩
    simp only [remove_key] at ih ⊢
    by_cases h0 : k0 = k
    · subst h0
      simpa [py_get, h, List.filter_cons] using ih
    · by_cases h1 : k0 = k'
      · subst h1
        simp [py_get, h0, List.filter_cons]
      · simpa [py_get, h0, h1, List.filter_cons] using ih

/-- `_coerce_messages_payload` on an object either raises or returns an
object in which every key other than `messages`, `input` and
`instructions` is unchanged. -/
theorem coerce_messages_payload_preserves (kvs : List (String × Json)) (k : String)
    (hk1 : k ≠ "messages") (hk2 : k ≠ "input") (hk3 : k ≠ "instructions") :
    (∃ e, coerce_messages_payload (.obj kvs) = .error e)
    ∨ ∃ kvs', coerce_messages_payload (.obj kvs) = .ok (.obj kvs')
        ∧ py_get kvs' k = py_get kvs k := by
  rcases hm : py_get kvs "messages" with _ | msgs
  · right
    exact ⟨kvs, by simp [coerce_messages_payload, hm], rfl⟩
  · by_cases hin : input_present_nonempty (py_get kvs "input") = true
    · exact Or.inl ⟨"Provide either input or messages, not both.",
        by simp [coerce_messages_payload, hm, hin]⟩
    · cases msgs with
      | arr messages =>
          rcases hloop : coerce_messages_loop messages with e | pi
          · exact Or.inl ⟨e, by simp [coerce_messages_payload, hm, hin, hloop]⟩
          · rcases pi with ⟨parts, inputs⟩
            right
            refine ⟨coerce_messages_result kvs parts inputs,
              by simp [coerce_messages_payload, hm, hin, hloop], ?_⟩
            unfold coerce_messages_result
            rw [py_get_set_key_ne _ _ _ _ (Ne.symm hk3),
              py_get_set_key_ne _ _ _ _ (Ne.symm hk2),
              py_get_remove_key_ne _ _ _ (Ne.symm hk1)]
      | null => exact Or.inl ⟨"messages must be a list.",
          by simp [coerce_messages_payload, hm, hin]⟩
      | bool b => exact Or.inl ⟨"messages must be a list.",
          by simp [coerce_messages_payload, hm, hin]⟩
      | num q => exact Or.inl ⟨"messages must be a list.",
          by simp [coerce_messages_payload, hm, hin]⟩
      | str s => exact Or.inl ⟨"messages must be a list.",
          by simp [coerce_messages_payload, hm, hin]⟩
      | obj fields => exact Or.inl ⟨"messages must be a list.",
          by simp [coerce_messages_payload, hm, hin]⟩

/-- With `store` bound to JSON `true`, the field validation raises. -/
theorem validate_responses_request_fields_store (kvs : List (String × Json))
    (hstore : py_get kvs "store" = some (.bool true)) :
    ∃ e, validate_responses_request_fields kvs = .error e := by
  rcases hv : validate_responses_request_fields kvs with e | r
  · exact ⟨e, rfl⟩
  · exfalso
    unfold validate_responses_request_fields at hv
    obtain ⟨w1, h1, hv⟩ := except_bind_ok hv
    obtain ⟨w2, h2, hv⟩ := except_bind_ok hv
    obtain ⟨w3, h3, hv⟩ := except_bind_ok hv
    obtain ⟨w4, h4, hv⟩ := except_bind_ok hv
    obtain ⟨w5, h5, hv⟩ := except_bind_ok hv
    obtain ⟨w6, h6, hv⟩ := except_bind_ok hv
    obtain ⟨w7, h7, hv⟩ := except_bind_ok hv
    obtain ⟨w8, h8, hv⟩ := except_bind_ok hv
    rw [hstore] at h8
    simp [get_store_field] at h8

/-- No key of `_strip_unsupported_fields`' output is
`max_output_tokens`. -/
theorem py_get_strip_unsupported (l : List (String × Json)) :
    py_get (strip_unsupported_fields l) "max_output_tokens" = none := by
  induction l with
  | nil => rfl
  | cons kv rest ih =>
    rcases kv with ⟨k0, v0⟩
    by_cases h : k0 = "max_output_tokens"
    · subst h
      simpa [strip_unsupported_fields, unsupported_upstream_fields] using ih
    · simpa [strip_unsupported_fields, unsupported_upstream_fields, py_get, h] using ih

/-- C2: validating a Responses request whose `store` field is JSON `true`
fails with a validation error (so it never reaches upstream), and the
outbound payload of every validated request contains no
`max_output_tokens` key. -/
theorem store_and_strip_spec :
    (∀ kvs : List (String × Json), py_get kvs "store" = some (.bool true) →
      ∃ e, validate_responses_request (.obj kvs) = .error e)
    ∧ (∀ r : ResponsesRequest, py_get (to_payload r) "max_output_tokens" = none) := by
  constructor
  · intro kvs hstore
    rcases coerce_messages_payload_preserves kvs "store" (by decide) (by decide) (by decide)
      with ⟨e, he⟩ | ⟨kvs', hok, hpres⟩
    · exact ⟨e, by unfold validate_responses_request; rw [he]⟩
    · obtain ⟨e, he⟩ := validate_responses_request_fields_store kvs' (hpres.trans hstore)
      exact ⟨e, by unfold validate_responses_request; rw [hok]; exact he⟩
  · intro r
    unfold to_payload
    exact py_get_strip_unsupported _

/-- Witness for C2: a minimal request carrying `store: true` is
rejected. -/
theorem store_and_strip_spec_witness :
    ∃ e, validate_responses_request
      (.obj [("model", .str "gpt-5.1"), ("store", .bool true)]) = .error e :=
  store_and_strip_spec.1 [("model", .str "gpt-5.1"), ("store", .bool true)] rfl

/-- Filtering out empty strings is idempotent. -/
theorem filter_ne_nil_idem (l : List String) :
    (l.filter (fun p => p ≠ "")).filter (fun p => p ≠ "") = l.filter (fun p => p ≠ "") := by
  rw [List.filter_filter]
  simp

/-- On an already-filtered parts list and a non-empty existing
instructions string, `_merge_instructions` appends the joined parts after
a newline (or keeps the existing string when nothing was extracted). -/
theorem merge_instructions_eq (s : String) (hs : s ≠ "") (parts : List String)
    (hp : parts.filter (fun p => p ≠ "") = parts) :
    merge_instructions s parts =
      if joinNL parts = "" then s else s ++ "\n" ++ joinNL parts := by
  unfold merge_instructions
  by_cases h0 : parts = []
  · subst h0
    simp [joinNL]
  · rw [if_neg h0, hp]
    by_cases h1 : joinNL parts = ""
    · simp [h1]
    · simp [h1, hs]

/-- The coercion loop over object messages collects exactly the non-empty
system/developer texts (in order) and the non-system messages (in
order). -/
theorem coerce_messages_loop_spec (messages : List Json)
    (hobj : ∀ m ∈ messages, ∃ f, m = .obj f) :
    coerce_messages_loop messages =
      .ok ((messages.filterMap sys_dev_text).filter (fun p => p ≠ ""),
           messages.filter (fun m => !is_sys_dev_msg m)) := by
  induction messages with
  | nil => rfl
  | cons m rest ih =>
    obtain ⟨f, rfl⟩ := hobj m (List.mem_cons_self _ _)
    have ih2 := ih (fun x hx => hobj x (List.mem_cons_of_mem _ hx))
    by_cases hrole : sys_dev_role f = true
    · rcases hct : content_to_text (py_get f "content") with _ | s
      · simp [coerce_messages_loop, ih2, hrole, sys_dev_text, is_sys_dev_msg, hct,
          List.filterMap_cons, List.filter_cons]
      · by_cases hs : s = ""
        · subst hs
          simp [coerce_messages_loop, ih2, hrole, sys_dev_text, is_sys_dev_msg, hct,
            List.filterMap_cons, List.filter_cons]
        · simp [coerce_messages_loop, ih2, hrole, sys_dev_text, is_sys_dev_msg, hct, hs,
            List.filterMap_cons, List.filter_cons]
    · simp [coerce_messages_loop, ih2, hrole, sys_dev_text, is_sys_dev_msg,
        List.filterMap_cons, List.filter_cons]

/-- C3: a chat request carrying both a non-empty `input` and a `messages`
list fails coercion with a validation error; otherwise, for a messages
list of objects, every system/developer content is extracted and joined
newline-delimited (empty parts dropped) into `instructions` (appended
after any existing non-empty instructions with a newline separator), and
all other-role messages land in `input` preserving their original
relative order. -/
theorem coerce_messages_spec (kvs : List (String × Json)) :
    (∀ msgs v, py_get kvs "messages" = some msgs → py_get kvs "input" = some v →
      v ≠ .null → v ≠ .arr [] →
      coerce_messages_payload (.obj kvs) =
        .error "Provide either input or messages, not both.")
    ∧ (∀ messages, py_get kvs "messages" = some (.arr messages) →
        input_present_nonempty (py_get kvs "input") = false →
        (∀ m ∈ messages, ∃ f, m = .obj f) →
        ∃ kvs', coerce_messages_payload (.obj kvs) = .ok (.obj kvs')
          ∧ py_get kvs' "input" =
              some (.arr (messages.filter (fun m => !is_sys_dev_msg m)))
          ∧ py_get kvs' "instructions" =
              some (.str (claim_instructions kvs messages))) := by
  constructor
  · intro msgs v hm hv h1 h2
    have hin : input_present_nonempty (py_get kvs "input") = true := by
      rw [hv]
      cases v with
      | null => exact absurd rfl h1
      | arr l =>
          cases l with
          | nil => exact absurd rfl h2
          | cons x xs => rfl
      | bool b => rfl
      | num q => rfl
      | str s => rfl
      | obj fields => rfl
    simp [coerce_messages_payload, hm, hin]
  · intro messages hm hin hobj
    have hloop := coerce_messages_loop_spec messages hobj
    refine ⟨coerce_messages_result kvs
        ((messages.filterMap sys_dev_text).filter (fun p => p ≠ ""))
        (messages.filter (fun m => !is_sys_dev_msg m)),
      by simp [coerce_messages_payload, hm, hin, hloop], ?_, ?_⟩
    · unfold coerce_messages_result
      rw [py_get_set_key_ne _ _ _ _ (by decide), py_get_set_key_self]
    · unfold coerce_messages_result
      rw [py_get_set_key_self]
      refine congrArg some (congrArg Json.str ?_)
      rw [py_get_set_key_ne _ _ _ _ (by decide), py_get_remove_key_ne _ _ _ (by decide)]
      unfold claim_instructions
      rcases hi : py_get kvs "instructions" with _ | vi
      · rw [filter_ne_nil_idem]
      · cases vi with
        | str s =>
            dsimp only
            by_cases hs : s = ""
            · subst hs
              simp [filter_ne_nil_idem]
            · rw [if_pos hs, if_pos hs]
              exact merge_instructions_eq s hs _ (filter_ne_nil_idem _)
        | null => rw [filter_ne_nil_idem]
        | bool b => rw [filter_ne_nil_idem]
        | num q => rw [filter_ne_nil_idem]
        | arr l => rw [filter_ne_nil_idem]
        | obj fields => rw [filter_ne_nil_idem]

/-- Witness for C3: the spec scenario — a system message and a user
message coerce to `instructions = "sys"` and a single-element `input`. -/
theorem coerce_messages_spec_witness :
    ∃ kvs', coerce_messages_payload (.obj
        [("model", .str "gpt-5.1"),
         ("messages", .arr
           [.obj [("role", .str "system"), ("content", .str "sys")],
            .obj [("role", .str "user"), ("content", .str "hi")]])]) = .ok (.obj kvs')
      ∧ py_get kvs' "input" = some (.arr
          ([.obj [("role", .str "system"), ("content", .str "sys")],
            .obj [("role", .str "user"), ("content", .str "hi")]].filter
            (fun m => !is_sys_dev_msg m)))
      ∧ py_get kvs' "instructions" = some (.str (claim_instructions
          [("model", .str "gpt-5.1"),
           ("messages", .arr
             [.obj [("role", .str "system"), ("content", .str "sys")],
              .obj [("role", .str "user"), ("content", .str "hi")]])]
          [.obj [("role", .str "system"), ("content", .str "sys")],
           .obj [("role", .str "user"), ("content", .str "hi")]])) :=
  (coerce_messages_spec
    [("model", .str "gpt-5.1"),
     ("messages", .arr
       [.obj [("role", .str "system"), ("content", .str "sys")],
        .obj [("role", .str "user"), ("content", .str "hi")]])]).2
    [.obj [("role", .str "system"), ("content", .str "sys")],
     .obj [("role", .str "user"), ("content", .str "hi")]]
    rfl rfl
    (fun m hm => by
      rcases List.mem_cons.mp hm with rfl | hm2
      · exact ⟨_, rfl⟩
      · rcases List.mem_cons.mp hm2 with rfl | hm3
        · exact ⟨_, rfl⟩
        · exact absurd hm3 (List.not_mem_nil _))

/-- The lexicographic character order is irreflexive. -/
theorem chars_lt_irrefl (l : List Char) : chars_lt l l = false := by
  induction l with
  | nil => rfl
  | cons a as ih => simp [chars_lt, lt_irrefl, ih]

/-- Connectivity: two lists neither of which is below the other are
equal. -/
theorem chars_lt_conn (a b : List Char) (hab : chars_lt a b = false)
    (hba : chars_lt b a = false) : a = b := by
  induction a generalizing b with
  | nil =>
    cases b with
    | nil => rfl
    | cons x xs => simp [chars_lt] at hab
  | cons x xs ih =>
    cases b with
    | nil => simp [chars_lt] at hba
    | cons y ys =>
      rcases lt_trichotomy x y with h | h | h
      · simp [chars_lt, h] at hab
      · subst h
        simp [chars_lt, lt_irrefl] at hab hba
        rw [ih ys hab hba]
      · simp [chars_lt, h, asymm h] at hba

/-- Transitivity of the lexicographic character order. -/
theorem chars_lt_trans (a b c : List Char) (hab : chars_lt a b = true)
    (hbc : chars_lt b c = true) : chars_lt a c = true := by
  induction a generalizing b c with
  | nil =>
    cases c with
    | nil =>
      cases b with
      | nil => simp [chars_lt] at hab
      | cons y ys => simp [chars_lt] at hbc
    | cons z zs => rfl
  | cons x xs ih =>
    cases b with
    | nil => simp [chars_lt] at hab
    | cons y ys =>
      cases c with
      | nil => simp [chars_lt] at hbc
      | cons z zs =>
        rcases lt_trichotomy x y with hxy | hxy | hxy
        · rcases lt_trichotomy y z with hyz | hyz | hyz
          · simp [chars_lt, lt_trans hxy hyz]
          · subst hyz
            simp [chars_lt, hxy]
          · simp [chars_lt, hyz, asymm hyz] at hbc
        · subst hxy
          rcases lt_trichotomy x z with hyz | hyz | hyz
          · simp [chars_lt, hyz]
          · subst hyz
            simp [chars_lt, lt_irrefl] at hab hbc ⊢
            exact ih ys zs hab hbc
          · simp [chars_lt, hyz, asymm hyz] at hbc
        · simp [chars_lt, hxy, asymm hxy] at hab

/-- Asymmetry of the lexicographic character order. -/
theorem chars_lt_asymm (a b : List Char) (h : chars_lt a b = true) :
    chars_lt b a = false := by
  cases hba : chars_lt b a with
  | false => rfl
  | true =>
    have habs := chars_lt_trans a b a h hba
    rw [chars_lt_irrefl] at habs
    exact Bool.noConfusion habs

/-- Below across a non-strict bound: `c < a` and `¬(b < a)` give
`c < b`. -/
theorem chars_lt_of_lt_of_not_lt (a b c : List Char) (hca : chars_lt c a = true)
    (hba : chars_lt b a = false) : chars_lt c b = true := by
  cases hcb : chars_lt c b with
  | true => rfl
  | false =>
    cases hbc : chars_lt b c with
    | true =>
      have habs := chars_lt_trans b c a hbc hca
      rw [hba] at habs
      exact Bool.noConfusion habs
    | false =>
      have heq := chars_lt_conn c b hcb hbc
      rw [heq] at hca
      rw [hca] at hba
      exact Bool.noConfusion hba

/-- The selection preference order is reflexive. -/
theorem state_le_refl (a : AccountState) : state_le a a :=
  Or.inr ⟨rfl, Or.inr ⟨rfl, chars_lt_irrefl _⟩⟩

/-- Strict preference implies non-strict preference. -/
theorem state_le_of_lt {a b : AccountState} (h : state_lt a b) : state_le a b := by
  rcases h with h | ⟨e, h⟩
  · exact Or.inl h
  · right
    refine ⟨e, ?_⟩
    rcases h with h | ⟨f, h⟩
    · exact Or.inl h
    · exact Or.inr ⟨f, chars_lt_asymm _ _ h⟩

/-- The preference order is total: not strictly worse means at least as
good. -/
theorem state_le_of_not_lt {a b : AccountState} (h : ¬ state_lt b a) : state_le a b := by
  rcases lt_trichotomy a.used_percent b.used_percent with hu | hu | hu
  · exact Or.inl hu
  · right
    refine ⟨hu, ?_⟩
    rcases lt_trichotomy a.error_count b.error_count with he | he | he
    · exact Or.inl he
    · right
      refine ⟨he, ?_⟩
      cases hs : str_lt b.account_id a.account_id with
      | false => rfl
      | true => exact absurd (Or.inr ⟨hu.symm, Or.inr ⟨he.symm, hs⟩⟩) h
    · exact absurd (Or.inr ⟨hu.symm, Or.inl he⟩) h
  · exact absurd (Or.inl hu) h

/-- Transitivity of the preference order. -/
theorem state_le_trans {a b c : AccountState} (h1 : state_le a b) (h2 : state_le b c) :
    state_le a c := by
  rcases h1 with h1 | ⟨e1, h1⟩
  · rcases h2 with h2 | ⟨e2, h2⟩
    · exact Or.inl (lt_trans h1 h2)
    · exact Or.inl (e2 ▸ h1)
  · rcases h2 with h2 | ⟨e2, h2⟩
    · exact Or.inl (e1 ▸ h2)
    · right
      refine ⟨e1.trans e2, ?_⟩
      rcases h1 with h1 | ⟨f1, h1⟩
      · rcases h2 with h2 | ⟨f2, h2⟩
        · exact Or.inl (lt_trans h1 h2)
        · exact Or.inl (f2 ▸ h1)
      · rcases h2 with h2 | ⟨f2, h2⟩
        · exact Or.inl (f1 ▸ h2)
        · right
          refine ⟨f1.trans f2, ?_⟩
          cases hs : str_lt c.account_id a.account_id with
          | false => rfl
          | true =>
            have hcb := chars_lt_of_lt_of_not_lt _ _ _ hs h1
            unfold str_lt at h2
            rw [hcb] at h2
            exact Bool.noConfusion h2

/-- `pick_best` returns a member of its candidates that is preferred to
every candidate. -/
theorem pick_best_spec (l : List AccountState) :
    ∀ x, pick_best x l ∈ x :: l ∧ ∀ s ∈ x :: l, state_le (pick_best x l) s := by
  induction l with
  | nil =>
    intro x
    refine ⟨List.mem_cons_self x [], ?_⟩
    intro s hs
    rw [List.mem_singleton] at hs
    subst hs
    exact state_le_refl _
  | cons y ys ih =>
    intro x
    by_cases hlt : state_lt y x
    · have hz : pick_best x (y :: ys) = pick_best y ys := by simp [pick_best, hlt]
      obtain ⟨hmem, hle⟩ := ih y
      refine ⟨?_, ?_⟩
      · rw [hz]
        exact List.mem_cons_of_mem x hmem
      · intro s hs
        rw [hz]
        rcases List.mem_cons.mp hs with rfl | hs2
        · exact state_le_trans (hle y (List.mem_cons_self _ _)) (state_le_of_lt hlt)
        · exact hle s hs2
    · have hz : pick_best x (y :: ys) = pick_best x ys := by simp [pick_best, hlt]
      obtain ⟨hmem, hle⟩ := ih x
      refine ⟨?_, ?_⟩
      · rw [hz]
        rcases List.mem_cons.mp hmem with h | h
        · rw [List.mem_cons]
          exact Or.inl h
        · exact List.mem_cons_of_mem _ (List.mem_cons_of_mem _ h)
      · intro s hs
        rw [hz]
        rcases List.mem_cons.mp hs with rfl | hs2
        · exact hle s (List.mem_cons_self _ _)
        · rcases List.mem_cons.mp hs2 with rfl | hs3
          · exact state_le_trans (hle x (List.mem_cons_self _ _)) (state_le_of_not_lt hlt)
          · exact hle s (List.mem_cons_of_mem _ hs3)

/-- A left fold with `min` returns a member of the values that is below
all of them. -/
theorem foldl_min_spec (ws : List ℚ) :
    ∀ w : ℚ, ws.foldl min w ∈ w :: ws ∧ ∀ v ∈ w :: ws, ws.foldl min w ≤ v := by
  induction ws with
  | nil =>
    intro w
    refine ⟨List.mem_cons_self w [], ?_⟩
    intro v hv
    rw [List.mem_singleton] at hv
    subst hv
    exact le_refl _
  | cons u us ih =>
    intro w
    obtain ⟨hmem, hle⟩ := ih (min w u)
    rw [List.foldl_cons]
    refine ⟨?_, ?_⟩
    · rcases List.mem_cons.mp hmem with h | h
      · rcases min_choice w u with hm | hm
        · rw [List.mem_cons]
          exact Or.inl (h.trans hm)
        · exact List.mem_cons_of_mem _ (by rw [List.mem_cons]; exact Or.inl (h.trans hm))
      · exact List.mem_cons_of_mem _ (List.mem_cons_of_mem _ h)
    · intro v hv
      rcases List.mem_cons.mp hv with rfl | hv2
      · exact le_trans (hle _ (List.mem_cons_self _ _)) (min_le_left _ _)
      · rcases List.mem_cons.mp hv2 with rfl | hv3
        · exact le_trans (hle _ (List.mem_cons_self _ _)) (min_le_right _ _)
        · exact hle v (List.mem_cons_of_mem _ hv3)

/-- C1: `select_account` returns an eligible account (status ACTIVE with
neither `cooldown_until` nor `reset_at` in the future, after the
normalisation pass) whose `used_percent` is minimal among the eligible,
ties broken by lowest `error_count` and then lexicographically smallest
account id; with no eligible account it returns `account = None` and an
error message reporting the smallest `max(cooldown_until, reset_at) - now`
across the skipped candidates. -/
theorem select_account_spec (states : List AccountState) (now : ℚ) :
    (∀ r rest, eligible_accounts states now = r :: rest →
      ∃ b, (select_account states now).account = some b
        ∧ b ∈ eligible_accounts states now
        ∧ ∀ s ∈ eligible_accounts states now, state_le b s)
    ∧ (eligible_accounts states now = [] →
      (select_account states now).account = none
      ∧ ∀ w ws, wait_hints states now = w :: ws →
        ∃ m, (select_account states now).error_message = some (wait_message m)
          ∧ m ∈ wait_hints states now ∧ ∀ v ∈ wait_hints states now, m ≤ v) := by
  constructor
  · intro r rest helig
    refine ⟨pick_best r rest, ?_, ?_, ?_⟩
    · unfold select_account
      rw [helig]
    · rw [helig]
      exact (pick_best_spec rest r).1
    · rw [helig]
      exact (pick_best_spec rest r).2
  · intro helig
    constructor
    · unfold select_account
      rw [helig]
      cases hw : wait_hints states now with
      | nil => rfl
      | cons w ws => rfl
    · intro w ws hw
      refine ⟨ws.foldl min w, ?_, ?_, ?_⟩
      · unfold select_account
        rw [helig, hw]
      · rw [hw]
        exact (foldl_min_spec ws w).1
      · rw [hw]
        exact (foldl_min_spec ws w).2

/-- Witness for C1: the spec scenario — two ACTIVE accounts at 50 and 10
percent; the selection is account `b`, the eligible minimum. -/
theorem select_account_spec_witness :
    ∃ b, (select_account
        [{ account_id := "a", status := .ACTIVE, used_percent := 50 },
         { account_id := "b", status := .ACTIVE, used_percent := 10 }] 0).account = some b
      ∧ b ∈ eligible_accounts
          [{ account_id := "a", status := .ACTIVE, used_percent := 50 },
           { account_id := "b", status := .ACTIVE, used_percent := 10 }] 0
      ∧ ∀ s ∈ eligible_accounts
          [{ account_id := "a", status := .ACTIVE, used_percent := 50 },
           { account_id := "b", status := .ACTIVE, used_percent := 10 }] 0, state_le
          b s :=
  (select_account_spec
    [{ account_id := "a", status := .ACTIVE, used_percent := 50 },
     { account_id := "b", status := .ACTIVE, used_percent := 10 }] 0).1
    { account_id := "a", status := .ACTIVE, used_percent := 50 }
    [{ account_id := "b", status := .ACTIVE, used_percent := 10 }]
    (by decide)
